import Mathlib

/-!
A verification development for the `vscode-slice` language server
(`src/server/src/`).  The Rust sources are shallowly embedded: paths are
modelled as strings with Unix semantics (`PathBuf::is_absolute` is "starts
with /", `PathBuf::join` replaces the base when the argument is absolute),
URL conversions (`Url::from_file_path` / `Url::to_file_path`) are modelled
by their outcomes, and per-file hash maps are modelled as association
lists.
-/

namespace VscodeSlice

/-- Unix model of `std::path::Path::is_absolute`: the path begins with the
separator character. -/
def isAbsolutePath (p : String) : Bool :=
  match p.data with
  | '/' :: _ => true
  | _ => false

/-- Unix model of `std::path::Path::join`: an absolute argument replaces
the base path, a relative one is appended below it. -/
def joinPath (base child : String) : String :=
  if isAbsolutePath child then child else base ++ "/" ++ child

/-- Outcome of converting one search-path entry in
`SliceConfig::resolve_paths` (`slice_config.rs` lines 52-69): the chain
`Url::from_file_path(root_path.join(path))` followed by
`path_url.to_file_path()`.  `fromErr` is an error in the first call
(the `Err(_)` arm, line 68), `toErr` an error in the second (the
`let Ok(absolute_path) ... else continue`, lines 56-58), and `ok` carries
the resulting file path. -/
inductive UrlConvResult where
  | fromErr
  | toErr
  | ok (absolute_path : String)
deriving DecidableEq, Repr

/-- `ServerConfig` from `slice_config.rs` lines 6-12.  `root_uri_as_file_path`
models the result of `Url::to_file_path(&server_config.root_uri)`:
`none` when the root URI does not represent a valid file path. -/
structure ServerConfig where
  root_uri_as_file_path : Option String
  built_in_slice_path : String
deriving DecidableEq, Repr

/-- `SliceOptions` from the `slicec` crate, restricted to the one field the
server writes (`references`); `SliceOptions::default()` has no references. -/
structure SliceOptions where
  references : List String
deriving DecidableEq, Repr

/-- `SliceConfig` from `slice_config.rs` lines 15-20; the derived
`Default` is `{ paths: None, include_built_in_path: false,
cached_slice_options: None }`. -/
structure SliceConfig where
  paths : Option (List String)
  include_built_in_path : Bool
  cached_slice_options : Option SliceOptions
deriving DecidableEq, Repr

def SliceConfig.default : SliceConfig :=
  { paths := none, include_built_in_path := false, cached_slice_options := none }

/-- The `for path in paths` loop of `SliceConfig::resolve_paths`
(`slice_config.rs` lines 50-70).  `conv` maps the joined path of an entry
to the outcome of its URL round-trip.  `none` models the early
`return vec![root_path.display().to_string()]` of the `Err(_)` arm
(line 68), which abandons every entry already pushed and everything after
it; a `toErr` entry is skipped by `continue`. -/
def resolveEntries (conv : String → UrlConvResult) (root_path : String) :
    List String → Option (List String)
  | [] => some []
  | p :: rest =>
    match conv (joinPath root_path p) with
    | .fromErr => none
    | .toErr => resolveEntries conv root_path rest
    | .ok absolute_path =>
      (resolveEntries conv root_path rest).map fun tail =>
        (if isAbsolutePath absolute_path then absolute_path
         else joinPath root_path absolute_path) :: tail

/-- `SliceConfig::resolve_paths` (`slice_config.rs` lines 34-86).
`String::display` is the identity in this model. -/
def SliceConfig.resolve_paths (conv : String → UrlConvResult)
    (self : SliceConfig) (server_config : ServerConfig) : List String :=
  match server_config.root_uri_as_file_path with
  | none => []
  | some root_path =>
    match self.paths with
    | none =>
      [if isAbsolutePath root_path then root_path else joinPath root_path root_path]
    | some paths =>
      match resolveEntries conv root_path paths with
      | none => [root_path]
      | some result_urls =>
        let base := if result_urls.isEmpty then [root_path] else result_urls
        if self.include_built_in_path && !server_config.built_in_slice_path.isEmpty
        then base ++ [server_config.built_in_slice_path]
        else base

/-- `SliceConfig::update_from_paths` (`slice_config.rs` lines 23-26). -/
def SliceConfig.update_from_paths (self : SliceConfig) (paths : List String) : SliceConfig :=
  { self with paths := some paths, cached_slice_options := none }

/-- `SliceConfig::update_include_built_in_path` (`slice_config.rs` lines 28-31). -/
def SliceConfig.update_include_built_in_path (self : SliceConfig) (b : Bool) : SliceConfig :=
  { self with include_built_in_path := b, cached_slice_options := none }

/-- `SliceConfig::as_slice_options` (`slice_config.rs` lines 88-96),
returning the options together with the updated (possibly freshly cached)
configuration.  The global `crate::server_config()` is the
`server_config` argument. -/
def SliceConfig.as_slice_options (conv : String → UrlConvResult)
    (self : SliceConfig) (server_config : ServerConfig) : SliceOptions × SliceConfig :=
  match self.cached_slice_options with
  | some opts => (opts, self)
  | none =>
    let opts : SliceOptions := { references := self.resolve_paths conv server_config }
    (opts, { self with cached_slice_options := some opts })

/-- The operations a caller can perform on a `SliceConfig`. -/
inductive ConfigOp where
  | updatePaths (paths : List String)
  | updateIncludeBuiltIn (b : Bool)
  | getOptions
deriving DecidableEq, Repr

def applyConfigOp (conv : String → UrlConvResult) (server_config : ServerConfig)
    (cfg : SliceConfig) : ConfigOp → SliceConfig
  | .updatePaths ps => cfg.update_from_paths ps
  | .updateIncludeBuiltIn b => cfg.update_include_built_in_path b
  | .getOptions => (cfg.as_slice_options conv server_config).2

def runConfigOps (conv : String → UrlConvResult) (server_config : ServerConfig)
    (cfg : SliceConfig) (ops : List ConfigOp) : SliceConfig :=
  ops.foldl (applyConfigOp conv server_config) cfg

/-- Cache coherence: a populated cache always holds exactly the options
that `resolve_paths` would produce for the current fields. -/
def cacheCoherent (conv : String → UrlConvResult) (server_config : ServerConfig)
    (cfg : SliceConfig) : Prop :=
  ∀ opts, cfg.cached_slice_options = some opts →
    opts = { references := cfg.resolve_paths conv server_config }

theorem resolve_paths_ignores_cache (conv : String → UrlConvResult)
    (server_config : ServerConfig) (paths : Option (List String)) (b : Bool)
    (c c' : Option SliceOptions) :
    SliceConfig.resolve_paths conv ⟨paths, b, c⟩ server_config
      = SliceConfig.resolve_paths conv ⟨paths, b, c'⟩ server_config := rfl

theorem cacheCoherent_apply (conv : String → UrlConvResult)
    (server_config : ServerConfig) (cfg : SliceConfig) (op : ConfigOp)
    (h : cacheCoherent conv server_config cfg) :
    cacheCoherent conv server_config (applyConfigOp conv server_config cfg op) := by
  cases op with
  | updatePaths ps =>
    intro opts hopts
    simp [applyConfigOp, SliceConfig.update_from_paths] at hopts
  | updateIncludeBuiltIn b =>
    intro opts hopts
    simp [applyConfigOp, SliceConfig.update_include_built_in_path] at hopts
  | getOptions =>
    intro opts hopts
    cases cfg with
    | mk paths b cached =>
      cases cached with
      | none =>
        simp [applyConfigOp, SliceConfig.as_slice_options] at hopts
        subst hopts
        rfl
      | some o =>
        simp [applyConfigOp, SliceConfig.as_slice_options] at hopts
        subst hopts
        exact h o rfl

theorem cacheCoherent_run (conv : String → UrlConvResult)
    (server_config : ServerConfig) (cfg : SliceConfig) (ops : List ConfigOp)
    (h : cacheCoherent conv server_config cfg) :
    cacheCoherent conv server_config (runConfigOps conv server_config cfg ops) := by
  induction ops generalizing cfg with
  | nil => exact h
  | cons op rest ih =>
    exact ih (applyConfigOp conv server_config cfg op) (cacheCoherent_apply conv server_config cfg op h)

theorem resolveEntries_ne_none_of_no_fromErr (conv : String → UrlConvResult)
    (root_path : String) (ps : List String)
    (h : ∀ q ∈ ps, conv (joinPath root_path q) ≠ .fromErr) :
    ∃ urls, resolveEntries conv root_path ps = some urls := by
  induction ps with
  | nil => exact ⟨[], rfl⟩
  | cons p rest ih =>
    obtain ⟨urls, hurls⟩ := ih fun q hq => h q (List.mem_cons_of_mem p hq)
    have hp := h p (List.mem_cons_self p rest)
    cases hcp : conv (joinPath root_path p) with
    | fromErr => exact absurd hcp hp
    | toErr => exact ⟨urls, by simp [resolveEntries, hcp, hurls]⟩
    | ok absolute_path =>
      refine ⟨(if isAbsolutePath absolute_path then absolute_path
               else joinPath root_path absolute_path) :: urls, ?_⟩
      simp [resolveEntries, hcp, hurls]

theorem resolveEntries_none_of_fromErr (conv : String → UrlConvResult)
    (root_path : String) (ps : List String) (q : String) (hq : q ∈ ps)
    (h : conv (joinPath root_path q) = .fromErr) :
    resolveEntries conv root_path ps = none := by
  induction ps with
  | nil => cases hq
  | cons p rest ih =>
    rcases List.mem_cons.mp hq with rfl | hmem
    · simp [resolveEntries, h]
    · cases hcp : conv (joinPath root_path p) with
      | fromErr => simp [resolveEntries, hcp]
      | toErr => simpa [resolveEntries, hcp] using ih hmem
      | ok absolute_path => simp [resolveEntries, hcp, ih hmem]

theorem resolveEntries_skips_toErr (conv : String → UrlConvResult)
    (root_path : String) (pre post : List String) (p : String)
    (h : conv (joinPath root_path p) = .toErr) :
    resolveEntries conv root_path (pre ++ p :: post)
      = resolveEntries conv root_path (pre ++ post) := by
  induction pre with
  | nil => simp [resolveEntries, h]
  | cons q rest ih =>
    cases hcq : conv (joinPath root_path q) with
    | fromErr => simp [resolveEntries, hcq]
    | toErr => simpa [resolveEntries, hcq] using ih
    | ok absolute_path => simp [resolveEntries, hcq, ih]

theorem resolve_paths_shape (conv : String → UrlConvResult)
    (root_path builtin : String) (ps : List String) (inc : Bool)
    (cached : Option SliceOptions) (urls : List String)
    (hre : resolveEntries conv root_path ps = some urls) :
    SliceConfig.resolve_paths conv ⟨some ps, inc, cached⟩ ⟨some root_path, builtin⟩
      = (if urls.isEmpty then [root_path] else urls)
        ++ (if inc && !builtin.isEmpty then [builtin] else []) := by
  simp only [SliceConfig.resolve_paths, hre]
  split <;> simp

theorem resolve_paths_abort (conv : String → UrlConvResult)
    (root_path builtin : String) (ps : List String) (inc : Bool)
    (cached : Option SliceOptions)
    (hre : resolveEntries conv root_path ps = none) :
    SliceConfig.resolve_paths conv ⟨some ps, inc, cached⟩ ⟨some root_path, builtin⟩
      = [root_path] := by
  simp [SliceConfig.resolve_paths, hre]

/-- C10: after any sequence of `update_from_paths` /
`update_include_built_in_path` (and intervening reads), the next
`as_slice_options` returns options whose `references` equal the path
resolution of the current paths and include-built-in flag: each mutator
invalidates the cache, so a stale cache is never returned. -/
theorem as_slice_options_cache_coherent (conv : String → UrlConvResult)
    (server_config : ServerConfig) (ops : List ConfigOp) :
    ((runConfigOps conv server_config SliceConfig.default ops).as_slice_options
        conv server_config).1.references
      = (runConfigOps conv server_config SliceConfig.default ops).resolve_paths
          conv server_config := by
  have hcc := cacheCoherent_run conv server_config SliceConfig.default ops
    (by intro opts h; simp [SliceConfig.default] at h)
  cases hc : (runConfigOps conv server_config SliceConfig.default ops).cached_slice_options with
  | none => simp [SliceConfig.as_slice_options, hc]
  | some o =>
    have ho := hcc o hc
    simp [SliceConfig.as_slice_options, hc, ho]

/-- C2 counterexample: with a workspace-root URI that does not convert to a
file path, `resolve_paths` returns the empty list; and with an empty
search-path list but a requested, non-empty built-in path, the result is
a two-element list, not `[workspace_root]`. -/
theorem resolve_paths_totality_refuted :
    SliceConfig.resolve_paths (fun _ => .ok "") ⟨some [], true, none⟩
        ⟨none, "/builtin"⟩ = [] ∧
    SliceConfig.resolve_paths (fun s => .ok s) ⟨some [], true, none⟩
        ⟨some "/ws", "/builtin"⟩ = ["/ws", "/builtin"] := by
  constructor <;> rfl

/-- C2 amended: provided the workspace root converts to a file path,
`resolve_paths` returns a non-empty list (when that conversion fails the
result is empty); with an empty search-path list the result is the
workspace root followed by the built-in path exactly when built-in
inclusion is requested with a non-empty built-in path. -/
theorem resolve_paths_nonempty_of_valid_root (conv : String → UrlConvResult)
    (cfg : SliceConfig) (server_config : ServerConfig) (root_path : String)
    (h : server_config.root_uri_as_file_path = some root_path) :
    cfg.resolve_paths conv server_config ≠ [] ∧
    (cfg.paths = some [] →
      cfg.resolve_paths conv server_config
        = root_path ::
          (if cfg.include_built_in_path && !server_config.built_in_slice_path.isEmpty
           then [server_config.built_in_slice_path] else [])) := by
  obtain ⟨rc, builtin⟩ := server_config
  simp only at h
  subst h
  obtain ⟨paths, inc, cached⟩ := cfg
  simp only
  cases paths with
  | none =>
    constructor
    · simp [SliceConfig.resolve_paths]
    · intro hcontra; cases hcontra
  | some ps =>
    cases hre : resolveEntries conv root_path ps with
    | none =>
      constructor
      · simp [resolve_paths_abort conv root_path builtin ps inc cached hre]
      · intro hps
        have hps' : ps = [] := by simpa using hps
        subst hps'
        simp [resolveEntries] at hre
    | some urls =>
      rw [resolve_paths_shape conv root_path builtin ps inc cached urls hre]
      constructor
      · intro hcontra
        rcases List.append_eq_nil.mp hcontra with ⟨h1, -⟩
        by_cases hu : urls.isEmpty <;> simp [hu] at h1
        exact hu (by simp [h1])
      · intro hps
        have hps' : ps = [] := by simpa using hps
        subst hps'
        have hurls : urls = [] := by simpa [resolveEntries] using hre.symm
        subst hurls
        simp

theorem resolve_paths_nonempty_of_valid_root_witness :
    SliceConfig.resolve_paths (fun s => .ok s) ⟨some [], false, none⟩
        ⟨some "/ws", ""⟩ ≠ [] :=
  (resolve_paths_nonempty_of_valid_root (fun s => .ok s) ⟨some [], false, none⟩
    ⟨some "/ws", ""⟩ "/ws" rfl).1

/-- Conversion oracle with one entry whose URL conversion
(`Url::from_file_path`) fails. -/
def convAbortExample : String → UrlConvResult := fun s =>
  if s = "/ws/bad" then .fromErr else .ok s

/-- C3 counterexample: with entries `["/good", "bad"]` where only `bad`
hits a path-conversion (`from_file_path`) error, resolution does not skip
just that entry and keep `"/good"`: it aborts and returns only the
workspace root (dropping the already-resolved entry and the built-in
path). -/
theorem resolve_paths_skip_only_refuted :
    SliceConfig.resolve_paths convAbortExample ⟨some ["/good", "bad"], true, none⟩
        ⟨some "/ws", "/builtin"⟩ = ["/ws"] ∧
    ("/good" : String) ∉
      SliceConfig.resolve_paths convAbortExample ⟨some ["/good", "bad"], true, none⟩
        ⟨some "/ws", "/builtin"⟩ := by
  constructor
  · rfl
  · decide

/-- C3 amended: an entry whose URL fails the *to-file-path* direction is
skipped and resolution continues with the remaining entries; an entry
whose *from-file-path* conversion fails aborts the whole resolution,
which immediately returns `[workspace_root]` alone (without the built-in
path); the workspace-root fallback also applies when every entry was
skipped. -/
theorem resolve_paths_error_handling (conv : String → UrlConvResult)
    (root_path builtin p q : String) (pre post ps : List String) (inc : Bool) :
    (conv (joinPath root_path p) = .toErr →
      SliceConfig.resolve_paths conv ⟨some (pre ++ p :: post), inc, none⟩
          ⟨some root_path, builtin⟩
        = SliceConfig.resolve_paths conv ⟨some (pre ++ post), inc, none⟩
            ⟨some root_path, builtin⟩) ∧
    (q ∈ ps → conv (joinPath root_path q) = .fromErr →
      SliceConfig.resolve_paths conv ⟨some ps, inc, none⟩ ⟨some root_path, builtin⟩
        = [root_path]) := by
  constructor
  · intro hto
    simp only [SliceConfig.resolve_paths,
      resolveEntries_skips_toErr conv root_path pre post p hto]
  · intro hq hfrom
    exact resolve_paths_abort conv root_path builtin ps inc none
      (resolveEntries_none_of_fromErr conv root_path ps q hq hfrom)

/-- Conversion oracle used by the C3 witness: `t` hits a to-file-path
error, `f` hits a from-file-path error. -/
def convMixedExample : String → UrlConvResult := fun s =>
  if s = "/ws/t" then .toErr else if s = "/ws/f" then .fromErr else .ok s

theorem resolve_paths_error_handling_witness :
    SliceConfig.resolve_paths convMixedExample ⟨some ["/a", "t"], false, none⟩
        ⟨some "/ws", ""⟩
      = SliceConfig.resolve_paths convMixedExample ⟨some ["/a"], false, none⟩
          ⟨some "/ws", ""⟩ ∧
    SliceConfig.resolve_paths convMixedExample ⟨some ["f"], false, none⟩
        ⟨some "/ws", ""⟩ = ["/ws"] :=
  ⟨(resolve_paths_error_handling convMixedExample "/ws" "" "t" "f" ["/a"] [] ["f"]
      false).1 (by decide),
   (resolve_paths_error_handling convMixedExample "/ws" "" "t" "f" ["/a"] [] ["f"]
      false).2 (by decide) (by decide)⟩

/-- C4 counterexample: with the built-in path supplied (`"/builtin"`),
non-empty and requested (`include_built_in_path = true`), resolution does
*not* append it when an entry aborts conversion (early return with
`[workspace_root]`), nor when the search-path list was never set (the
`paths = None` early return). -/
theorem built_in_last_refuted :
    SliceConfig.resolve_paths convAbortExample ⟨some ["bad"], true, none⟩
        ⟨some "/ws", "/builtin"⟩ = ["/ws"] ∧
    SliceConfig.resolve_paths convAbortExample ⟨none, true, none⟩
        ⟨some "/ws", "/builtin"⟩ = ["/ws"] := by
  constructor <;> rfl

/-- C4 amended: whenever the built-in path is supplied, non-empty and
requested, the workspace root converts, the search-path list is
explicitly set, and no entry hits a from-file-path conversion error
(i.e. resolution reaches its append step instead of returning early),
the built-in path is appended as the last element, strictly after every
user-derived path: the result is exactly the without-built-in resolution
plus the built-in path at the end. -/
theorem built_in_appended_last (conv : String → UrlConvResult)
    (root_path : String) (ps : List String) (server_config : ServerConfig)
    (hroot : server_config.root_uri_as_file_path = some root_path)
    (hb : server_config.built_in_slice_path.isEmpty = false)
    (hok : ∀ entry ∈ ps, conv (joinPath root_path entry) ≠ .fromErr) :
    SliceConfig.resolve_paths conv ⟨some ps, true, none⟩ server_config
      = SliceConfig.resolve_paths conv ⟨some ps, false, none⟩ server_config
        ++ [server_config.built_in_slice_path] := by
  obtain ⟨urls, hurls⟩ := resolveEntries_ne_none_of_no_fromErr conv root_path ps hok
  obtain ⟨rc, builtin⟩ := server_config
  simp only at hroot hb
  subst hroot
  rw [resolve_paths_shape conv root_path builtin ps true none urls hurls,
    resolve_paths_shape conv root_path builtin ps false none urls hurls]
  simp [hb]

theorem built_in_appended_last_witness :
    SliceConfig.resolve_paths (fun s => .ok s) ⟨some ["refs"], true, none⟩
        ⟨some "/ws", "/builtin"⟩
      = SliceConfig.resolve_paths (fun s => .ok s) ⟨some ["refs"], false, none⟩
          ⟨some "/ws", "/builtin"⟩ ++ ["/builtin"] :=
  built_in_appended_last (fun s => .ok s) "/ws" ["refs"] ⟨some "/ws", "/builtin"⟩
    rfl rfl (by decide)

/-! ## Diagnostics pipeline (`diagnostic_ext.rs`, `diagnostic_handler.rs`, `main.rs`) -/

/-- `slicec::slice_file::Location`: 1-based row/column. -/
structure Location where
  row : Nat
  col : Nat
deriving DecidableEq, Repr

/-- `slicec::slice_file::Span`; the Rust field `end` is `end_` here. -/
structure Span where
  file : String
  start : Location
  end_ : Location
deriving DecidableEq, Repr

/-- `slicec::diagnostics::DiagnosticLevel`. -/
inductive DiagnosticLevel where
  | error
  | warning
  | allowed
deriving DecidableEq, Repr

/-- `slicec::diagnostics::Note`. -/
structure DiagNote where
  span : Option Span
  message : String
deriving DecidableEq, Repr

/-- `slicec::diagnostics::Diagnostic`, restricted to the accessors the
server uses (`level()`, `span()`, `code()`, `message()`, `notes()`). -/
structure Diagnostic where
  level : DiagnosticLevel
  span : Option Span
  code : String
  message : String
  notes : List DiagNote
deriving DecidableEq, Repr

/-- `tower_lsp::lsp_types::DiagnosticSeverity`, restricted to the two
values the server produces. -/
inductive LspSeverity where
  | error
  | warning
deriving DecidableEq, Repr

/-- `tower_lsp::lsp_types::Position`: 0-based line/character. -/
structure LspPosition where
  line : Nat
  character : Nat
deriving DecidableEq, Repr

structure LspRange where
  start : LspPosition
  end_ : LspPosition
deriving DecidableEq, Repr

/-- `tower_lsp::lsp_types::DiagnosticRelatedInformation`: a location
(URI plus range) and a message. -/
structure LspRelatedInformation where
  location_uri : String
  location_range : LspRange
  message : String
deriving DecidableEq, Repr

/-- `tower_lsp::lsp_types::Diagnostic`, restricted to the fields the
server fills with non-constant values (`code_description`, `tags` and
`data` are always `None`, `source` is always `"slicec"`). -/
structure LspDiagnostic where
  range : LspRange
  severity : Option LspSeverity
  code : String
  message : String
  related_information : List LspRelatedInformation
deriving DecidableEq, Repr

/-- `utils::convert_slice_url_to_uri` (`Url::from_file_path(url).ok()`):
on Unix the conversion succeeds exactly for absolute paths, and the model
keeps the path itself as the URI. -/
def convert_slice_url_to_uri (url : String) : Option String :=
  if isAbsolutePath url then some url else none

/-- The span-to-range conversion of `try_into_lsp_diagnostic`
(`diagnostic_ext.rs` lines 142-155): 1-based rows/cols become 0-based
lines/characters. -/
def span_to_range (span : Span) : LspRange :=
  ⟨⟨span.start.row - 1, span.start.col - 1⟩, ⟨span.end_.row - 1, span.end_.col - 1⟩⟩

/-- `try_into_lsp_diagnostic_related_information`
(`diagnostic_ext.rs` lines 180-198). -/
def try_into_lsp_diagnostic_related_information (note : DiagNote) :
    Option LspRelatedInformation :=
  match note.span with
  | none => none
  | some sp =>
    (convert_slice_url_to_uri sp.file).map fun uri =>
      ⟨uri, span_to_range sp, note.message⟩

/-- `try_into_lsp_diagnostic` (`diagnostic_ext.rs` lines 132-177):
returns the diagnostic itself as the error value when it has no span. -/
def try_into_lsp_diagnostic (diagnostic : Diagnostic) :
    Except Diagnostic LspDiagnostic :=
  let severity : Option LspSeverity :=
    match diagnostic.level with
    | .error => some .error
    | .warning => some .warning
    | .allowed => none
  match diagnostic.span with
  | none => .error diagnostic
  | some span =>
    .ok ⟨span_to_range span, severity, diagnostic.code, diagnostic.message,
      diagnostic.notes.filterMap try_into_lsp_diagnostic_related_information⟩

/-- The per-file publish map
(`HashMap<Url, Vec<tower_lsp::lsp_types::Diagnostic>>`), modelled as an
association list. -/
abbrev PublishMap : Type := List (String × List LspDiagnostic)

/-- `publish_map.entry(uri).or_default().push(lsp_diagnostic)`
(`diagnostic_ext.rs` line 100). -/
def publishMapPush (map : PublishMap) (uri : String) (d : LspDiagnostic) : PublishMap :=
  match map with
  | [] => [(uri, [d])]
  | (k, v) :: rest =>
    if k = uri then (k, v ++ [d]) :: rest else (k, v) :: publishMapPush rest uri d

def publishMapLookup (map : PublishMap) (uri : String) : Option (List LspDiagnostic) :=
  match map with
  | [] => none
  | (k, v) :: rest => if k = uri then some v else publishMapLookup rest uri

/-- `process_diagnostics` (`diagnostic_ext.rs` lines 75-103; the copy in
`diagnostic_handler.rs` lines 51-79 is identical up to the path-to-URI
helper).  Each diagnostic is converted; on success it is pushed into the
map under its span's file URI (dropped when that URI conversion fails, as
the `filter_map` does), on failure — which happens exactly for spanless
diagnostics — it is collected into the returned list.  The source's
`.expect(...)` for a spanless `Ok` is unreachable because `Ok` implies
the span was present; that branch leaves the map unchanged here. -/
def process_diagnostics :
    List Diagnostic → PublishMap → PublishMap × List Diagnostic
  | [], publish_map => (publish_map, [])
  | diagnostic :: rest, publish_map =>
    match try_into_lsp_diagnostic diagnostic with
    | .ok lsp_diagnostic =>
      match diagnostic.span with
      | some span =>
        match convert_slice_url_to_uri span.file with
        | some uri =>
          process_diagnostics rest (publishMapPush publish_map uri lsp_diagnostic)
        | none => process_diagnostics rest publish_map
      | none => process_diagnostics rest publish_map
    | .error d =>
      let result := process_diagnostics rest publish_map
      (result.1, d :: result.2)

/-- `publish_diagnostics_for_set` (`diagnostic_ext.rs` lines 20-48): the
map is seeded with an empty entry for every file key of the set's
`compilation_data.files` whose URI conversion succeeds, then populated by
`process_diagnostics`.  The first component is the published per-file
map; the second is the list of spanless diagnostics, each of which is
shown in a popup. -/
def publish_diagnostics_for_set (files : List String)
    (diagnostics : List Diagnostic) : PublishMap × List Diagnostic :=
  let map : PublishMap :=
    files.filterMap fun uri => (convert_slice_url_to_uri uri).map fun u => (u, [])
  process_diagnostics diagnostics map

/-- Modelled from the spec: `Backend::publish_diagnostics_for_all_files`
(`main.rs` lines 506-551) calls an `Option`-returning variant of
`try_into_lsp_diagnostic` whose source is not in this tree; per the
spec's conversion contract it is the `Result` version of
`diagnostic_ext.rs` with the error value discarded. -/
def try_into_lsp_diagnostic_opt (diagnostic : Diagnostic) : Option LspDiagnostic :=
  (try_into_lsp_diagnostic diagnostic).toOption

/-- The map built by `Backend::publish_diagnostics_for_all_files`
(`main.rs` lines 516-541): empty entries for the compilation state's
files, then a loop in which a diagnostic without a span — or whose file
URI or LSP conversion fails — is skipped by `continue`. -/
def publish_diagnostics_for_all_files_map (files : List String)
    (diagnostics : List Diagnostic) : PublishMap :=
  let map : PublishMap :=
    files.filterMap fun k => (convert_slice_url_to_uri k).map fun u => (u, [])
  diagnostics.foldl
    (fun acc diagnostic =>
      match diagnostic.span with
      | none => acc
      | some span =>
        match convert_slice_url_to_uri span.file with
        | none => acc
        | some uri =>
          match try_into_lsp_diagnostic_opt diagnostic with
          | none => acc
          | some lsp_diagnostic => publishMapPush acc uri lsp_diagnostic)
    map

/-- Total number of per-file diagnostic entries in a publish map. -/
def publishMapSize (map : PublishMap) : Nat :=
  (map.map fun kv => kv.2.length).sum

/-- A diagnostic that reaches the publish map: it has a span and the
span's file converts to a URI. -/
def attributable (d : Diagnostic) : Bool :=
  match d.span with
  | some sp => (convert_slice_url_to_uri sp.file).isSome
  | none => false

theorem publishMapPush_size (map : PublishMap) (uri : String) (d : LspDiagnostic) :
    publishMapSize (publishMapPush map uri d) = publishMapSize map + 1 := by
  induction map with
  | nil => simp [publishMapPush, publishMapSize]
  | cons kv rest ih =>
    obtain ⟨k, v⟩ := kv
    by_cases hk : k = uri <;> simp [publishMapPush, hk, publishMapSize] at ih ⊢ <;> omega

theorem publishMapPush_lookup_isSome (map : PublishMap) (uri u : String)
    (d : LspDiagnostic) (h : (publishMapLookup map u).isSome = true) :
    (publishMapLookup (publishMapPush map uri d) u).isSome = true := by
  induction map with
  | nil => simp [publishMapLookup] at h
  | cons kv rest ih =>
    obtain ⟨k, v⟩ := kv
    by_cases hk : k = uri
    · subst hk
      by_cases hu : k = u
      · simp [publishMapPush, publishMapLookup, hu]
      · simp only [publishMapPush, publishMapLookup, if_pos rfl, if_neg hu] at h ⊢
        exact h
    · by_cases hu : k = u
      · subst hu
        simp [publishMapPush, publishMapLookup, hk]
      · simp only [publishMapPush, publishMapLookup, if_neg hk, if_neg hu] at h ⊢
        exact ih h

theorem process_diagnostics_lookup_isSome (ds : List Diagnostic)
    (map : PublishMap) (u : String)
    (h : (publishMapLookup map u).isSome = true) :
    (publishMapLookup (process_diagnostics ds map).1 u).isSome = true := by
  induction ds generalizing map with
  | nil => exact h
  | cons d rest ih =>
    cases hconv : try_into_lsp_diagnostic d with
    | ok lsp =>
      cases hspan : d.span with
      | none => simpa [process_diagnostics, hconv, hspan] using ih map h
      | some sp =>
        cases huri : convert_slice_url_to_uri sp.file with
        | none => simpa [process_diagnostics, hconv, hspan, huri] using ih map h
        | some uri =>
          simp only [process_diagnostics, hconv, hspan, huri]
          exact ih _ (publishMapPush_lookup_isSome map uri u lsp h)
    | error d2 =>
      simpa [process_diagnostics, hconv] using ih map h

theorem try_into_lsp_diagnostic_error_elim (d e : Diagnostic)
    (h : try_into_lsp_diagnostic d = .error e) : d.span = none ∧ e = d := by
  unfold try_into_lsp_diagnostic at h
  cases hspan : d.span with
  | none =>
    rw [hspan] at h
    refine ⟨rfl, ?_⟩
    injection h with h
    exact h.symm
  | some sp =>
    rw [hspan] at h
    cases h

theorem try_into_lsp_diagnostic_ok_span (d : Diagnostic) (l : LspDiagnostic)
    (h : try_into_lsp_diagnostic d = .ok l) : d.span ≠ none := by
  intro hspan
  unfold try_into_lsp_diagnostic at h
  rw [hspan] at h
  cases h

/-- C1 counterexample input: a diagnostic duplicated verbatim (same span,
same message), as when two overlapping projects report the same
problem. -/
def dupDiagnostic : Diagnostic :=
  ⟨.error, some ⟨"/a.slice", ⟨1, 1⟩, ⟨1, 2⟩⟩, "E001", "redefinition of X", []⟩

/-- C1 counterexample: a list holding two diagnostics with identical span
and message yields *two* entries for that file in the per-file output,
not one — `process_diagnostics` never merges span+message collisions. -/
theorem dedup_refuted :
    (publishMapLookup (process_diagnostics [dupDiagnostic, dupDiagnostic] []).1
        "/a.slice").map List.length = some 2 := by rfl

/-- C1 amended: the publishing step performs no deduplication at all:
every attributable diagnostic — duplicates included — is appended to its
file's list, so the total number of published entries grows by exactly
the number of attributable input diagnostics (two identical diagnostics
contribute two entries); publishing is a pure function of its input, so
publishing the same list twice produces the same grouping both times. -/
theorem process_diagnostics_no_dedup (ds : List Diagnostic) (map : PublishMap) :
    publishMapSize (process_diagnostics ds map).1
      = publishMapSize map + (ds.filter attributable).length := by
  induction ds generalizing map with
  | nil => simp [process_diagnostics]
  | cons d rest ih =>
    cases hconv : try_into_lsp_diagnostic d with
    | ok lsp =>
      cases hspan : d.span with
      | none => exact absurd hspan (try_into_lsp_diagnostic_ok_span d lsp hconv)
      | some sp =>
        have hattr : attributable d = (convert_slice_url_to_uri sp.file).isSome := by
          simp [attributable, hspan]
        cases huri : convert_slice_url_to_uri sp.file with
        | none =>
          simp [process_diagnostics, hconv, hspan, huri, ih, List.filter_cons, hattr]
        | some uri =>
          simp [process_diagnostics, hconv, hspan, huri, ih, List.filter_cons, hattr,
            publishMapPush_size]
          omega
    | error d2 =>
      have hspan := (try_into_lsp_diagnostic_error_elim d d2 hconv).1
      have hattr : attributable d = false := by simp [attributable, hspan]
      simp [process_diagnostics, hconv, ih, List.filter_cons, hattr]

/-- C5 counterexample: a file key of the compiled artifact's file table
whose URI conversion fails (a non-absolute path) does not appear in the
published output map at all — the seeding `filter_map` drops it, so it
receives no explicit empty diagnostic set. -/
theorem publish_completeness_refuted :
    (publish_diagnostics_for_set ["relative.slice"] []).1 = [] := by rfl

theorem seeded_map_lookup_isSome (files : List String) (u uri : String)
    (hmem : u ∈ files) (hconv : convert_slice_url_to_uri u = some uri) :
    (publishMapLookup
        (files.filterMap fun v =>
          (convert_slice_url_to_uri v).map fun w => (w, ([] : List LspDiagnostic)))
        uri).isSome = true := by
  induction files with
  | nil => cases hmem
  | cons f rest ih =>
    rcases List.mem_cons.mp hmem with rfl | hmem2
    · simp [List.filterMap_cons, hconv, publishMapLookup]
    · cases hcf : convert_slice_url_to_uri f with
      | none => simpa [List.filterMap_cons, hcf] using ih hmem2
      | some uf =>
        by_cases he : uf = uri
        · simp [List.filterMap_cons, hcf, publishMapLookup, he]
        · simpa [List.filterMap_cons, hcf, publishMapLookup, he] using ih hmem2

/-- C5 amended: every file key of the configuration set's file table
whose URI conversion succeeds appears as a key in the published output
map (seeded with an explicit empty diagnostic list before the
diagnostics are added); keys that fail the conversion are dropped by the
seeding `filter_map`. -/
theorem publish_map_complete_for_convertible (files : List String)
    (ds : List Diagnostic) (u uri : String) (hmem : u ∈ files)
    (hconv : convert_slice_url_to_uri u = some uri) :
    (publishMapLookup (publish_diagnostics_for_set files ds).1 uri).isSome = true :=
  process_diagnostics_lookup_isSome ds _ uri
    (seeded_map_lookup_isSome files u uri hmem hconv)

theorem publish_map_complete_for_convertible_witness :
    (publishMapLookup (publish_diagnostics_for_set ["/a.slice"] []).1
        "/a.slice").isSome = true :=
  publish_map_complete_for_convertible ["/a.slice"] [] "/a.slice" "/a.slice"
    (by decide) (by decide)

/-- C7 counterexample input: a compiler diagnostic with no attributable
source location. -/
def spanlessDiagnostic : Diagnostic :=
  ⟨.error, none, "E002", "compilation failed", []⟩

/-- C7 counterexample: in `Backend::publish_diagnostics_for_all_files`
(`main.rs` lines 529-541) a spanless diagnostic is skipped by `continue`:
the published output is empty and the function has no side channel
returning it, so the diagnostic is silently lost. -/
theorem spanless_never_dropped_refuted :
    publish_diagnostics_for_all_files_map [] [spanlessDiagnostic] = [] := by rfl

theorem process_diagnostics_spanless (ds : List Diagnostic) (map : PublishMap) :
    (process_diagnostics ds map).2 = ds.filter fun d => d.span.isNone := by
  induction ds generalizing map with
  | nil => simp [process_diagnostics]
  | cons d rest ih =>
    cases hconv : try_into_lsp_diagnostic d with
    | ok lsp =>
      cases hspan : d.span with
      | none => exact absurd hspan (try_into_lsp_diagnostic_ok_span d lsp hconv)
      | some sp =>
        cases huri : convert_slice_url_to_uri sp.file <;>
          simp [process_diagnostics, hconv, hspan, huri, ih, List.filter_cons]
    | error d2 =>
      obtain ⟨hspan, hd2⟩ := try_into_lsp_diagnostic_error_elim d d2 hconv
      subst hd2
      simp [process_diagnostics, hconv, ih, List.filter_cons, hspan]

theorem process_diagnostics_map_ignores_spanless (ds : List Diagnostic)
    (map : PublishMap) :
    (process_diagnostics ds map).1
      = (process_diagnostics (ds.filter fun d => d.span.isSome) map).1 := by
  induction ds generalizing map with
  | nil => rfl
  | cons d rest ih =>
    cases hconv : try_into_lsp_diagnostic d with
    | ok lsp =>
      cases hspan : d.span with
      | none => exact absurd hspan (try_into_lsp_diagnostic_ok_span d lsp hconv)
      | some sp =>
        cases huri : convert_slice_url_to_uri sp.file <;>
          simp [process_diagnostics, hconv, hspan, huri, ih, List.filter_cons]
    | error d2 =>
      have hspan := (try_into_lsp_diagnostic_error_elim d d2 hconv).1
      simp [process_diagnostics, hconv, ih, List.filter_cons, hspan]

/-- C7 amended: in the configuration-set pipeline
(`publish_diagnostics_for_set` / `process_diagnostics`) every spanless
diagnostic is excluded from the per-file map (the map is exactly what the
spanned diagnostics alone produce) and all of them are returned, in
order, for out-of-band popup presentation; in
`Backend::publish_diagnostics_for_all_files`, by contrast, spanless
diagnostics are silently skipped. -/
theorem spanless_diagnostics_returned (files : List String)
    (ds : List Diagnostic) :
    (publish_diagnostics_for_set files ds).2
        = ds.filter (fun d => d.span.isNone) ∧
    (publish_diagnostics_for_set files ds).1
        = (publish_diagnostics_for_set files
            (ds.filter fun d => d.span.isSome)).1 :=
  ⟨process_diagnostics_spanless ds _, process_diagnostics_map_ignores_spanless ds _⟩

/-! ## Position matching (`slicec_ext/visitor.rs`) -/

/-- `LspVisitor::is_location_in_span` (`slicec_ext/visitor.rs` lines
23-31): the four comparisons of the Rust source, row and column each
checked against their own bounds. -/
def is_location_in_span (location : Location) (span : Span) : Bool :=
  decide (location.row ≥ span.start.row) && decide (location.row ≤ span.end_.row)
    && decide (location.col ≥ span.start.col) && decide (location.col ≤ span.end_.col)

/-- The spec's lexicographic order on (row, col) positions: earlier row,
or same row and column not later.  Written from the spec's words, for
comparison against the source's `is_location_in_span`. -/
def locationLexLE (a b : Location) : Prop :=
  a.row < b.row ∨ (a.row = b.row ∧ a.col ≤ b.col)

instance (a b : Location) : Decidable (locationLexLE a b) := by
  unfold locationLexLE; infer_instance

/-- The spec's matching rule, written from the spec's words:
`start <= location <= end` lexicographically, inclusive on both ends. -/
def spec_location_in_span (location : Location) (span : Span) : Prop :=
  locationLexLE span.start location ∧ locationLexLE location span.end_

instance (l : Location) (s : Span) : Decidable (spec_location_in_span l s) := by
  unfold spec_location_in_span; infer_instance

/-- C6 counterexample: the location (2,3) lies lexicographically inside
the span (1,5)-(3,10), but `is_location_in_span` rejects it because its
column 3 is below the span's start column 5 — the code compares row and
column independently (a rectangle), not lexicographically. -/
theorem lexicographic_matching_refuted :
    spec_location_in_span ⟨2, 3⟩ ⟨"/a.slice", ⟨1, 5⟩, ⟨3, 10⟩⟩ ∧
    is_location_in_span ⟨2, 3⟩ ⟨"/a.slice", ⟨1, 5⟩, ⟨3, 10⟩⟩ = false := by decide

/-- C6 amended: a node matches exactly when both the row lies between the
span's start and end rows and the column lies between the span's start
and end columns (independent comparisons).  Matching therefore implies
lexicographic containment, and for single-row spans it coincides with
the lexicographic rule the spec states; for multi-row spans it is
strictly stronger. -/
theorem is_location_in_span_rectangle (location : Location) (span : Span) :
    (is_location_in_span location span = true → spec_location_in_span location span) ∧
    (span.start.row = span.end_.row →
      (is_location_in_span location span = true ↔ spec_location_in_span location span)) := by
  obtain ⟨row, col⟩ := location
  obtain ⟨file, s, e⟩ := span
  obtain ⟨r1, c1⟩ := s
  obtain ⟨r2, c2⟩ := e
  simp only [is_location_in_span, spec_location_in_span, locationLexLE,
    Bool.and_eq_true, decide_eq_true_eq]
  omega

theorem is_location_in_span_rectangle_witness :
    spec_location_in_span ⟨1, 2⟩ ⟨"/a.slice", ⟨1, 1⟩, ⟨1, 3⟩⟩ :=
  (is_location_in_span_rectangle ⟨1, 2⟩ ⟨"/a.slice", ⟨1, 1⟩, ⟨1, 3⟩⟩).1 (by decide)

/-! ## Configuration sets (`configuration_set.rs`, `session.rs`) -/

/-- A JSON project descriptor, restricted to the two keys
`ConfigurationSet::from_json` reads: `paths` is `some` when the key is
present with an array value (elements are the `as_str` results), and
`addWellKnownTypes` is `some` when present with a boolean value. -/
structure ConfigJson where
  paths : Option (List (Option String))
  addWellKnownTypes : Option Bool

/-- `parse_paths` (`configuration_set.rs` lines 96-108).  `sanitize_path`
lives in a `utils.rs` iteration that is absent from this tree, so it is a
parameter; the claims below hold for every choice of it. -/
def parse_paths (sanitize_path : String → String) (value : ConfigJson) : List String :=
  (value.paths.map fun arr => (arr.filterMap id).map sanitize_path).getD []

/-- `parse_include_built_in` (`configuration_set.rs` lines 110-116):
defaults to `true` when `addWellKnownTypes` is missing or not a bool. -/
def parse_include_built_in (value : ConfigJson) : Bool :=
  value.addWellKnownTypes.getD true

/-- Modelled from the spec: the `SliceConfig` iteration whose setters
(`set_workspace_root_path`, `set_built_in_slice_path`,
`set_search_paths`) are called by `ConfigurationSet::new` and
`ConfigurationSet::from_json` (`configuration_set.rs` lines 41-78) is
absent from this tree; per the spec (§4.2-§4.3) a configuration set
stores the workspace root, the optional built-in path, and the project's
search paths.  `compilation_data` starts as `CompilationData::default()`
and never affects the claims below, so it is omitted. -/
structure ConfigurationSet where
  workspace_root_path : String
  built_in_slice_path : Option String
  search_paths : List String
deriving DecidableEq, Repr

/-- `ConfigurationSet::new` (`configuration_set.rs` lines 43-50). -/
def ConfigurationSet.new (root_path : String) (built_in_path : String) :
    ConfigurationSet :=
  ⟨root_path, some built_in_path, []⟩

/-- `ConfigurationSet::from_json` (`configuration_set.rs` lines 65-78). -/
def ConfigurationSet.from_json (sanitize_path : String → String)
    (value : ConfigJson) (root_path built_in_path : String) : ConfigurationSet :=
  ⟨root_path,
   if parse_include_built_in value then some built_in_path else none,
   parse_paths sanitize_path value⟩

/-- `ConfigurationSet::parse_configuration_sets`
(`configuration_set.rs` lines 53-62): each descriptor mapped
independently, no list-level default. -/
def parse_configuration_sets (sanitize_path : String → String)
    (config_array : List ConfigJson) (root_path built_in_path : String) :
    List ConfigurationSet :=
  config_array.map fun value =>
    ConfigurationSet.from_json sanitize_path value root_path built_in_path

/-- `Session::update_configurations` (`session.rs` lines 90-102): install
the new configurations wholesale, pushing the single default set exactly
when the list is empty.  Both `update_from_initialize_params`
(line 66) and `update_configurations_from_params` (line 85) install
through this function. -/
def update_configurations (configurations : List ConfigurationSet)
    (root_path built_in_slice_path : String) : List ConfigurationSet :=
  if configurations.isEmpty
  then [ConfigurationSet.new root_path built_in_slice_path]
  else configurations

theorem update_configurations_ne_nil (cfgs : List ConfigurationSet)
    (root_path built_in_slice_path : String) :
    update_configurations cfgs root_path built_in_slice_path ≠ [] := by
  cases cfgs with
  | nil => simp [update_configurations]
  | cons c rest => simp [update_configurations]

/-- C8: parsing an empty descriptor list yields no configuration sets
(the resolver injects no list-level default); every installation through
`Session::update_configurations` — the single path used both at
initialization and at reconfiguration — substitutes exactly one default
set when the list is empty and otherwise keeps the parsed sets, so the
installed `configuration_sets` sequence is never empty. -/
theorem configuration_sets_never_empty (sanitize_path : String → String)
    (root_path built_in_path : String) (config_array : List ConfigJson)
    (cfgs : List ConfigurationSet) :
    parse_configuration_sets sanitize_path [] root_path built_in_path = [] ∧
    update_configurations [] root_path built_in_path
      = [ConfigurationSet.new root_path built_in_path] ∧
    update_configurations cfgs root_path built_in_path ≠ [] ∧
    update_configurations
        (parse_configuration_sets sanitize_path config_array root_path built_in_path)
        root_path built_in_path ≠ [] :=
  ⟨rfl, rfl, update_configurations_ne_nil cfgs root_path built_in_path,
   update_configurations_ne_nil _ root_path built_in_path⟩

/-! ## Hover queries (`hover.rs`) -/

/-- `slicec::grammar::Primitive`. -/
inductive Primitive where
  | bool
  | int8
  | uint8
  | int16
  | uint16
  | int32
  | uint32
  | varint32
  | varuint32
  | int64
  | uint64
  | varint62
  | varuint62
  | float32
  | float64
  | string
  | anyClass
deriving DecidableEq, Repr

/-- `HoverVisitor::describe_primitive_type` (`hover.rs` lines 42-62):
an article and a description per primitive kind. -/
def describe_primitive_type (primitive_type : Primitive) : String × String :=
  match primitive_type with
  | .bool => ("A", "boolean type.")
  | .int8 => ("An", "8-bit signed integer type.")
  | .uint8 => ("An", "8-bit unsigned integer type.")
  | .int16 => ("A", "16-bit signed integer type.")
  | .uint16 => ("A", "16-bit unsigned integer type.")
  | .int32 => ("A", "32-bit signed integer type.")
  | .uint32 => ("A", "32-bit unsigned integer type.")
  | .varint32 => ("A", "variable-length signed integer type.")
  | .varuint32 => ("A", "variable-length unsigned integer type.")
  | .int64 => ("A", "64-bit signed integer type.")
  | .uint64 => ("A", "64-bit unsigned integer type.")
  | .varint62 => ("A", "variable-length signed integer type.")
  | .varuint62 => ("A", "variable-length unsigned integer type.")
  | .float32 => ("A", "32-bit floating point type.")
  | .float64 => ("A", "64-bit floating point type.")
  | .string => ("A", "UTF-8 string.")
  | .anyClass => ("A", "instance of any Slice class.")

/-- The message both hover handlers build (`hover.rs` lines 83-89 and
117-124): `"An optional {description}"` for an optional reference,
`"{article} {description}"` otherwise. -/
def primitive_message (p : Primitive) (is_optional : Bool) : String :=
  let ad := describe_primitive_type p
  if is_optional then "An optional " ++ ad.2 else ad.1 ++ " " ++ ad.2

/-- Modelled from the spec: `slicec::slice_file::Location::is_within`,
used by `HoverVisitor` and `JumpVisitor`, lives in the external compiler
crate; per the spec's matching rule (§4.6) it is inclusive lexicographic
containment of the location between the span's start and end. -/
def Location.is_within (location : Location) (span : Span) : Bool :=
  decide (locationLexLE span.start location)
    && decide (locationLexLE location span.end_)

/-- The `concrete_type()` of a patched type reference, reduced to what
`HoverVisitor::visit_type_ref` distinguishes: `Types::Primitive` versus
every other variant. -/
inductive TypeRefConcrete where
  | primitive (p : Primitive)
  | nonPrimitive
deriving DecidableEq, Repr

/-- A `TypeRef` as seen by the hover visitor: its span, its definition
(`none` models `TypeRefDefinition::Unpatched`), and its optionality. -/
structure TypeRefData where
  span : Span
  definition : Option TypeRefConcrete
  is_optional : Bool
deriving DecidableEq, Repr

/-- An enum's underlying-type reference (`enum_def.underlying`): a
`TypeRef<Primitive>` whose definition is already patched. -/
structure EnumUnderlyingRef where
  span : Span
  primitive : Primitive
  is_optional : Bool
deriving DecidableEq, Repr

/-- `HoverVisitor::visit_enum` (`hover.rs` lines 78-91) as a transition
on `found_message`: when the enum has an underlying-type reference whose
span contains the search location, the message becomes that primitive's
description (the enum itself never produces a message). -/
def hover_visit_enum (search_location : Location) (found_message : Option String)
    (underlying : Option EnumUnderlyingRef) : Option String :=
  match underlying with
  | none => found_message
  | some u =>
    if !search_location.is_within u.span then found_message
    else some (primitive_message u.primitive u.is_optional)

/-- `HoverVisitor::visit_type_ref` (`hover.rs` lines 105-129) as a
transition on `found_message`: keep an already-found message; otherwise,
for a matching, patched, primitive reference produce its description, for
a matching non-primitive reference produce `None`, and leave an
unpatched or non-matching reference alone. -/
def hover_visit_type_ref (search_location : Location)
    (found_message : Option String) (typeref : TypeRefData) : Option String :=
  if found_message.isSome then found_message
  else if !search_location.is_within typeref.span then found_message
  else
    match typeref.definition with
    | none => found_message
    | some (.primitive p) => some (primitive_message p typeref.is_optional)
    | some .nonPrimitive => none

/-- One visitor callback: the enum handler (with the enum's underlying
reference), the type-reference handler, or one of the empty handlers
(`visit_file`, `visit_module`, `visit_struct`, `visit_class`,
`visit_exception`, `visit_interface`, `visit_operation`,
`visit_custom_type`, `visit_type_alias`, `visit_field`,
`visit_parameter`, `visit_enumerator`). -/
inductive HoverEvent where
  | visitEnum (underlying : Option EnumUnderlyingRef)
  | visitTypeRef (typeref : TypeRefData)
  | visitOther
deriving Repr

/-- A fragment of the compiled AST, as far as the hover visitor can
observe it: enums (with their underlying-type reference), type
references, and every other node kind (whose hover handler is empty),
each with its children. -/
inductive AstNode where
  | enumNode (span : Span) (underlying : Option EnumUnderlyingRef)
      (members : List AstNode)
  | typeRefNode (typeref : TypeRefData)
  | containerNode (span : Span) (members : List AstNode)

mutual

/-- Modelled from the spec: `SliceFile::visit_with` drives the traversal
inside the external compiler crate; per the spec (§4.6, §9) it is a
depth-first walk that visits a node before its children, visits every
definition and every type-reference — including an enum's
underlying-type reference — and keeps traversing after a match. -/
def visitEvents : AstNode → List HoverEvent
  | .enumNode _ underlying members =>
    HoverEvent.visitEnum underlying
      :: ((underlying.map fun u =>
            [HoverEvent.visitTypeRef ⟨u.span, some (.primitive u.primitive), u.is_optional⟩]).getD [])
      ++ visitEventsList members
  | .typeRefNode typeref => [HoverEvent.visitTypeRef typeref]
  | .containerNode _ members => HoverEvent.visitOther :: visitEventsList members

def visitEventsList : List AstNode → List HoverEvent
  | [] => []
  | n :: rest => visitEvents n ++ visitEventsList rest

end

/-- The hover visitor run over a traversal: each callback updates
`found_message`, starting from `None`. -/
def hoverFold (search_location : Location) :
    Option String → List HoverEvent → Option String
  | found_message, [] => found_message
  | found_message, e :: rest =>
    hoverFold search_location
      (match e with
       | .visitEnum underlying =>
         hover_visit_enum search_location found_message underlying
       | .visitTypeRef typeref =>
         hover_visit_type_ref search_location found_message typeref
       | .visitOther => found_message)
      rest

/-- `get_hover_info` (`hover.rs` lines 15-27), from the visitor phase on:
the file lookup and the 0-based-to-1-based position conversion happen at
the editor boundary and are not part of the matching logic. -/
def get_hover_info (ast : AstNode) (search_location : Location) : Option String :=
  hoverFold search_location none (visitEvents ast)

/-- C9: when the query location lies in a nested type reference's span,
the hover result is the nested, more specific reference's description,
never a description of the enclosing container — whatever the
container's span is, and in particular when it also contains the
location.  Shown both for an enum with its underlying-type reference
(the container's own handler answers for the nested reference and the
enum itself produces nothing) and for a generic container, whose match
does not stop traversal into its children. -/
theorem hover_nested_reference_wins (container_span : Span)
    (u : EnumUnderlyingRef) (t : TypeRefData) (p : Primitive) (loc : Location) :
    (loc.is_within u.span = true →
      get_hover_info (.enumNode container_span (some u) []) loc
        = some (primitive_message u.primitive u.is_optional)) ∧
    (t.definition = some (.primitive p) → loc.is_within t.span = true →
      get_hover_info (.containerNode container_span [.typeRefNode t]) loc
        = some (primitive_message p t.is_optional)) := by
  constructor
  · intro hw
    simp [get_hover_info, visitEvents, visitEventsList, hoverFold,
      hover_visit_enum, hover_visit_type_ref, hw]
  · intro hdef hw
    simp [get_hover_info, visitEvents, visitEventsList, hoverFold,
      hover_visit_enum, hover_visit_type_ref, hdef, hw]

theorem hover_nested_reference_wins_witness :
    get_hover_info
        (.enumNode ⟨"/a.slice", ⟨1, 1⟩, ⟨5, 1⟩⟩
          (some ⟨⟨"/a.slice", ⟨1, 10⟩, ⟨1, 15⟩⟩, .int32, false⟩) [])
        ⟨1, 12⟩
      = some "A 32-bit signed integer type." :=
  (hover_nested_reference_wins ⟨"/a.slice", ⟨1, 1⟩, ⟨5, 1⟩⟩
      ⟨⟨"/a.slice", ⟨1, 10⟩, ⟨1, 15⟩⟩, .int32, false⟩
      ⟨⟨"/a.slice", ⟨1, 10⟩, ⟨1, 15⟩⟩, some (.primitive .int32), false⟩
      .int32 ⟨1, 12⟩).1 (by decide)

end VscodeSlice
